import Mathlib

/-!
Verification of the resilient API request pipeline of the
`mcp-appstore-connect` server against its source:

* `src/config.ts` — configuration loading (`getConfig`);
* `src/auth/jwt.ts` — credential signer (`generateToken`, `clearTokenCache`);
* `src/utils/rate-limiter.ts` — rate-limit tracker (`parseRateLimitHeaders`)
  and backoff calculator (`calculateBackoff`);
* `src/utils/error-handler.ts` — error classifier (`parseErrorResponse`);
* `src/client/api-client.ts` — request pipeline (`makeRequest`, `get`,
  `post`, `patch`, `del`) and page follower (`getAllPages`).

Modelling conventions: JavaScript strings are Lean `String`s; JS numbers
that are integer-valued are `Int`/`Nat`; a numeric slot that can hold NaN
is `Option Int` with `none` for NaN; the real-valued delay arithmetic of
the backoff calculator is over `ℚ`, with the `Math.random()` draw passed
in explicitly; module-level mutable state (token cache, rate-limit record)
is passed explicitly; the network is an oracle function supplied to the
pipeline, and the pipeline's side effects (HTTP attempts, cache clearing,
sleeps) are recorded in an event trace.
-/

/-! ### JavaScript string and number primitives used by the source -/

/-- JS `String.prototype.split` restricted to a one-character separator,
on character lists: `"a;b;".split(";") = ["a", "b", ""]`, `"".split(";")
= [""]`.  The result is never empty. -/
def splitChar (sep : Char) : List Char → List (List Char)
  | [] => [[]]
  | c :: cs =>
    match splitChar sep cs with
    | [] => [[]]
    | l :: ls => if c = sep then [] :: l :: ls else (c :: l) :: ls

/-- JS `s.split(sep)` for a one-character separator, on strings. -/
def jsSplit (s : String) (sep : Char) : List String :=
  (splitChar sep s.data).map String.mk

/-- The value of the leading decimal-digit run of a character list; `none`
when the list does not start with a digit (JS `parseInt` yields NaN). -/
def leadingDigits (cs : List Char) : Option Nat :=
  let ds := cs.takeWhile Char.isDigit
  if ds.isEmpty then none
  else some (ds.foldl (fun a c => a * 10 + (c.toNat - 48)) 0)

/-- JS `parseInt(s, 10)`: skip leading whitespace, read an optional sign
and then the leading digit run; `none` models NaN (no digits found). -/
def parseIntJS (s : String) : Option Int :=
  match s.data.dropWhile Char.isWhitespace with
  | '-' :: rest => (leadingDigits rest).map (fun n => -(n : Int))
  | '+' :: rest => (leadingDigits rest).map (fun n => (n : Int))
  | cs => (leadingDigits cs).map (fun n => (n : Int))

/-- JS `parseInt(value, 10)` where `value : string | undefined`.
`parseInt(undefined, 10)` stringifies `undefined` to `"undefined"`,
which has no digits, hence NaN (`none`). -/
def jsParseIntOpt : Option String → Option Int
  | none => none
  | some s => parseIntJS s

/-! ### Rate-Limit Tracker (`src/utils/rate-limiter.ts`) -/

/-- The process-wide `rateLimitInfo` record.  The two quota fields are JS
numbers that `parseRateLimitHeaders` assigns from `parseInt`, so they can
hold NaN: `none` models NaN. -/
structure RateLimitInfo where
  hourlyLimit : Option Int
  hourlyRemaining : Option Int
  lastUpdated : Int
deriving Repr, DecidableEq

/-- The module initialiser: limit and remaining both at the published
hourly ceiling 3600, `lastUpdated = Date.now()` at load time. -/
def initialRateLimitInfo (loadTime : Int) : RateLimitInfo :=
  { hourlyLimit := some 3600, hourlyRemaining := some 3600, lastUpdated := loadTime }

/-- One iteration of the `for (const part of parts)` loop of
`parseRateLimitHeaders`: destructure `part.split(":")` into key and
(possibly `undefined`) value and assign the matching field. -/
def applyRateLimitPart (st : RateLimitInfo) (part : String) : RateLimitInfo :=
  let kv := jsSplit part ':'
  let key := kv.headD ""
  let value : Option String := kv.get? 1
  if key = "user-hour-lim" then { st with hourlyLimit := jsParseIntOpt value }
  else if key = "user-hour-rem" then { st with hourlyRemaining := jsParseIntOpt value }
  else st

/-- `parseRateLimitHeaders`, with the `x-rate-limit` header value passed
as `Option String` (`none` = header absent) and `Date.now()` as `now`.
`if (!rateLimitHeader) return;` is falsy for both a missing header and
the empty string. -/
def parseRateLimitHeaders (header : Option String) (now : Int)
    (st : RateLimitInfo) : RateLimitInfo :=
  match header with
  | none => st
  | some h =>
    if h = "" then st
    else
      let parts := jsSplit h ';'
      let st' := parts.foldl applyRateLimitPart st
      { st' with lastUpdated := now }

/-! ### Backoff Calculator (`src/utils/rate-limiter.ts`) -/

/-- `calculateBackoff(attempt, baseDelay, maxDelay)` over `ℚ`, with the
`Math.random()` draw `rand ∈ [0, 1)` passed explicitly.  The source
computes `min(baseDelay * 2^attempt + baseDelay * 2^attempt * rand * 0.25,
maxDelay)`; the call sites use the defaults `baseDelay = 1000`,
`maxDelay = 60000`. -/
def calculateBackoff (attempt : ℕ) (rand : ℚ) (baseDelay maxDelay : ℚ) : ℚ :=
  let exponentialDelay := baseDelay * 2 ^ attempt
  let jitter := exponentialDelay * rand * (25 / 100)
  min (exponentialDelay + jitter) maxDelay

/-! ### Error Classifier (`src/utils/error-handler.ts`) -/

/-- The optional `source` member of a structured problem entry. -/
structure ErrorSource where
  pointer : Option String
  parameter : Option String
deriving Repr, DecidableEq

/-- One structured problem entry of the App Store Connect error envelope. -/
structure ApiError where
  id : String
  status : String
  code : String
  title : String
  detail : String
  source : Option ErrorSource
deriving Repr, DecidableEq

/-- The `body : unknown` argument of `parseErrorResponse`, as the shapes
the pipeline can feed it: `jsNull` for `null` (including a failed
`response.json()` recovered by `.catch(() => null)`), a plain string, an
object carrying an `errors` array, or any other value together with its
`JSON.stringify` rendering. -/
inductive ErrorBody where
  | jsNull
  | jsString (s : String)
  | objWithErrors (errs : List ApiError)
  | other (stringified : String)
deriving Repr, DecidableEq

/-- The `AppStoreConnectError` class: status, problem entries, the
retryability verdict and the message the constructor assembles. -/
structure AppStoreConnectError where
  status : Nat
  errors : List ApiError
  isRetryable : Bool
  message : String
deriving Repr, DecidableEq

/-- The `AppStoreConnectError` constructor: joins `title: detail` of every
entry with `"; "` for the message. -/
def mkAppStoreConnectError (status : Nat) (errors : List ApiError)
    (isRetryable : Bool) : AppStoreConnectError :=
  { status, errors, isRetryable,
    message := String.intercalate "; " (errors.map (fun e => e.title ++ ": " ++ e.detail)) }

/-- The synthetic problem entry `parseErrorResponse` builds for a
non-standard body, with the given detail text. -/
def unknownApiError (status : Nat) (detail : String) : ApiError :=
  { id := "unknown", status := toString status, code := "UNKNOWN_ERROR",
    title := "Unknown Error", detail := detail, source := none }

/-- `parseErrorResponse(status, body)`: retryability is
`status >= 500 || status === 429` regardless of the body; a body carrying
an `errors` array is wrapped as is, anything else becomes one synthetic
entry whose detail is the body itself when it is a string and its
`JSON.stringify` rendering otherwise (`"null"` for `null`). -/
def parseErrorResponse (status : Nat) (body : ErrorBody) : AppStoreConnectError :=
  let isRetryable := decide (500 ≤ status) || decide (status = 429)
  match body with
  | .objWithErrors errs => mkAppStoreConnectError status errs isRetryable
  | .jsString s => mkAppStoreConnectError status [unknownApiError status s] isRetryable
  | .jsNull => mkAppStoreConnectError status [unknownApiError status "null"] isRetryable
  | .other j => mkAppStoreConnectError status [unknownApiError status j] isRetryable

/-! ### Configuration loading (`src/config.ts`) -/

/-- The environment variables `getConfig` reads.  A `process.env` entry is
`undefined` or a string; `none` models `undefined`.  `privateKey` models
the resolved private-key material (the source reads it from
`APP_STORE_PRIVATE_KEY`; the alternative file-path sourcing reads the same
material from disk and is delegated per the spec's configuration
collaborator). -/
structure EnvConfig where
  issuerId : Option String
  keyId : Option String
  privateKey : Option String
deriving Repr, DecidableEq

/-- The loaded configuration record `AppStoreConnectConfig`. -/
structure AppStoreConnectConfig where
  issuerId : String
  keyId : String
  privateKey : String
deriving Repr, DecidableEq

/-- The three `throw new Error(...)` sites of `src/config.ts`. -/
inductive ConfigError where
  | missingIssuerId
  | missingKeyId
  | missingPrivateKey
deriving Repr, DecidableEq

/-- JS truthiness of a `string | undefined` environment value:
`undefined` and `""` are falsy. -/
def jsPresentString : Option String → Option String
  | none => none
  | some s => if s = "" then none else some s

/-- `key.replace(/\\n/g, "\n")`: every two-character backslash-n sequence
becomes a newline character. -/
def unescapeNewlines : List Char → List Char
  | '\\' :: 'n' :: rest => '\n' :: unescapeNewlines rest
  | c :: rest => c :: unescapeNewlines rest
  | [] => []

/-- `getConfig()`: check `APP_STORE_ISSUER_ID`, then `APP_STORE_KEY_ID`,
then resolve the private key (throwing on whichever is missing first),
and return the configuration record. -/
def getConfig (env : EnvConfig) : Except ConfigError AppStoreConnectConfig :=
  match jsPresentString env.issuerId with
  | none => .error .missingIssuerId
  | some issuerId =>
    match jsPresentString env.keyId with
    | none => .error .missingKeyId
    | some keyId =>
      match jsPresentString env.privateKey with
      | none => .error .missingPrivateKey
      | some pk =>
        .ok { issuerId, keyId, privateKey := String.mk (unescapeNewlines pk.data) }

/-! ### Credential Signer (`src/auth/jwt.ts`) -/

/-- `TOKEN_EXPIRY_SECONDS = 20 * 60`. -/
def TOKEN_EXPIRY_SECONDS : Int := 20 * 60

/-- `REFRESH_BEFORE_SECONDS = 2 * 60`. -/
def REFRESH_BEFORE_SECONDS : Int := 2 * 60

/-- The JWT claims set `generateToken` signs. -/
structure TokenPayload where
  iss : String
  iat : Int
  exp : Int
  aud : String
deriving Repr, DecidableEq

/-- The `cachedToken` record: token string and absolute expiry in seconds
since epoch. -/
structure CachedToken where
  token : String
  expiresAt : Int
deriving Repr, DecidableEq

/-- The signer's module state: the `cachedToken` slot, plus a count of
`jwt.sign` invocations so theorems can speak about how often the signing
primitive ran. -/
structure JwtState where
  cachedToken : Option CachedToken
  signCount : Nat
deriving Repr, DecidableEq

/-- `generateToken()`, with the external `jwt.sign` primitive passed in as
`sign payload privateKey keyId`, `Math.floor(Date.now() / 1000)` as `now`,
and the module state passed explicitly.  The source loads the
configuration first, then consults the cache (returning the cached token
unchanged when more than `REFRESH_BEFORE_SECONDS` of lifetime remain),
and otherwise signs a fresh token and caches it. -/
def generateToken (sign : TokenPayload → String → String → String)
    (env : EnvConfig) (now : Int) (s : JwtState) :
    Except ConfigError (String × JwtState) :=
  match getConfig env with
  | .error e => .error e
  | .ok config =>
    match s.cachedToken with
    | some ct =>
      if ct.expiresAt - now > REFRESH_BEFORE_SECONDS then .ok (ct.token, s)
      else
        let expiresAt := now + TOKEN_EXPIRY_SECONDS
        let payload : TokenPayload :=
          { iss := config.issuerId, iat := now, exp := expiresAt, aud := "appstoreconnect-v1" }
        let token := sign payload config.privateKey config.keyId
        .ok (token, { cachedToken := some { token, expiresAt }, signCount := s.signCount + 1 })
    | none =>
      let expiresAt := now + TOKEN_EXPIRY_SECONDS
      let payload : TokenPayload :=
        { iss := config.issuerId, iat := now, exp := expiresAt, aud := "appstoreconnect-v1" }
      let token := sign payload config.privateKey config.keyId
      .ok (token, { cachedToken := some { token, expiresAt }, signCount := s.signCount + 1 })

/-- `clearTokenCache()`: `cachedToken = null`. -/
def clearTokenCache (s : JwtState) : JwtState :=
  { s with cachedToken := none }

/-! ### Request Pipeline (`src/client/api-client.ts`)

The network is an oracle `net : ℕ → AttemptOut T` giving the outcome of
the pipeline's i-th HTTP round trip, already parsed: the claims settled
here concern the status-dispatch and retry logic, so JSON parsing is the
oracle's business and the `ApiResponse<T>` success envelope is the opaque
payload `okBody`.  Per-attempt credential attachment and rate-limit
observation are orthogonal to those claims and are not threaded through
the loop; the `clearTokenCache()` call site is recorded as an event, as
are HTTP attempts and backoff sleeps, so theorems can count attempts and
sleeps.  The `Math.random()` draw of `calculateBackoff` on attempt `i` is
supplied by `jit i`. -/

/-- `BASE_URL`. -/
def BASE_URL : String := "https://api.appstoreconnect.apple.com/v1"

/-- `MAX_RETRIES = 3`. -/
def MAX_RETRIES : Nat := 3

/-- The pieces of one HTTP response the pipeline inspects: the status,
the `Retry-After` header, the error body after
`response.json().catch(() => null)`, and the parsed success envelope. -/
structure HttpResp (T : Type) where
  status : Nat
  retryAfter : Option String
  errorBody : ErrorBody
  okBody : T
deriving Repr, DecidableEq

/-- Outcome of one `fetch`: a response, or a transport-level failure
(DNS, connection reset, timeout — the promise rejected). -/
inductive AttemptOut (T : Type) where
  | resp (r : HttpResp T)
  | netFail
deriving Repr, DecidableEq

/-- Events one `makeRequest` call emits, in order. -/
inductive PipelineEvent where
  | httpAttempt (attempt : ℕ)
  | clearCache
  | sleep (ms : ℚ)
deriving Repr, DecidableEq

/-- What the `lastError` variable can hold: a retryable classified error,
or a transport error. -/
inductive PipelineFailure where
  | service (e : AppStoreConnectError)
  | network
deriving Repr, DecidableEq

/-- A JS `number | undefined` slot for the parsed `Retry-After` value:
`undefined` when the header is absent (or empty, hence falsy), NaN when
present but unparseable, an integer otherwise. -/
inductive JsNum where
  | undef
  | nan
  | val (n : Int)
deriving Repr, DecidableEq

/-- JS truthiness of such a slot: `undefined`, NaN and `0` are falsy. -/
def JsNum.truthy : JsNum → Bool
  | .val n => decide (n ≠ 0)
  | _ => false

/-- `retryAfterSeconds * 1000` for a truthy value. -/
def JsNum.ms : JsNum → ℚ
  | .val n => (n : ℚ) * 1000
  | _ => 0

/-- `const retryAfterSeconds = retryAfter ? parseInt(retryAfter, 10)
: undefined`. -/
def retryAfterSecondsOf (header : Option String) : JsNum :=
  match jsPresentString header with
  | none => .undef
  | some s =>
    match parseIntJS s with
    | none => .nan
    | some n => .val n

/-- How one `makeRequest` call terminates: the parsed envelope (with
`none` for the 204 null-data result), one of the three typed throws, or
the `throw lastError || new Error("Request failed after maximum
retries")` after the loop exits. -/
inductive ReqOutcome (T : Type) where
  | success (data : Option T)
  | authError (status : Nat)
  | rateLimitError (retryAfter : JsNum)
  | serviceError (e : AppStoreConnectError)
  | finalFailure (last : Option PipelineFailure)
deriving Repr, DecidableEq

/-- `response.ok`: status in the inclusive range 200–299. -/
def respOk (status : Nat) : Bool :=
  decide (200 ≤ status) && decide (status ≤ 299)

/-- The retry loop of `makeRequest` from a given attempt index, with the
accumulated `lastError`.  Mirrors the source branch for branch: success
and 204 return; 401/403 clears the token cache and retries immediately on
attempt 0 and throws `AuthenticationError` otherwise; 429 sleeps
`Retry-After * 1000` when that value is truthy, else `calculateBackoff`,
while attempts remain, and throws `RateLimitError` otherwise; any other
non-2xx is classified, retried after backoff while retryable and attempts
remain, thrown otherwise; a transport failure is remembered as
`lastError` and retried after backoff while attempts remain.  The loop's
remaining iteration count (`MAX_RETRIES - attempt` at every call reached
from `makeRequest`) is the structural recursion fuel; `fuel = 0` is the
`for` loop exiting, after which the source throws `lastError` (or the
generic fallback when none was recorded). -/
def makeRequestGo {T : Type} (net : ℕ → AttemptOut T) (jit : ℕ → ℚ) :
    (fuel : ℕ) → (attempt : ℕ) → (last : Option PipelineFailure) →
    List PipelineEvent × ReqOutcome T
  | 0, _, last => ([], .finalFailure last)
  | fuel + 1, attempt, last =>
    match net attempt with
    | .netFail =>
      if attempt < MAX_RETRIES - 1 then
        let d := calculateBackoff attempt (jit attempt) 1000 60000
        let rest := makeRequestGo net jit fuel (attempt + 1) (some .network)
        (.httpAttempt attempt :: .sleep d :: rest.1, rest.2)
      else
        ([.httpAttempt attempt], .finalFailure (some .network))
    | .resp r =>
      if respOk r.status then
        if r.status = 204 then ([.httpAttempt attempt], .success none)
        else ([.httpAttempt attempt], .success (some r.okBody))
      else if r.status = 401 ∨ r.status = 403 then
        if attempt = 0 then
          let rest := makeRequestGo net jit fuel (attempt + 1) last
          (.httpAttempt attempt :: .clearCache :: rest.1, rest.2)
        else
          ([.httpAttempt attempt], .authError r.status)
      else if r.status = 429 then
        let ras := retryAfterSecondsOf r.retryAfter
        if attempt < MAX_RETRIES - 1 then
          let d :=
            if ras.truthy then ras.ms
            else calculateBackoff attempt (jit attempt) 1000 60000
          let rest := makeRequestGo net jit fuel (attempt + 1) last
          (.httpAttempt attempt :: .sleep d :: rest.1, rest.2)
        else
          ([.httpAttempt attempt], .rateLimitError ras)
      else
        let e := parseErrorResponse r.status r.errorBody
        if e.isRetryable ∧ attempt < MAX_RETRIES - 1 then
          let d := calculateBackoff attempt (jit attempt) 1000 60000
          let rest := makeRequestGo net jit fuel (attempt + 1) (some (.service e))
          (.httpAttempt attempt :: .sleep d :: rest.1, rest.2)
        else
          ([.httpAttempt attempt], .serviceError e)

/-- `makeRequest`: run the loop from attempt 0 with no `lastError` and
`MAX_RETRIES` iterations available. -/
def makeRequest {T : Type} (net : ℕ → AttemptOut T) (jit : ℕ → ℚ) :
    List PipelineEvent × ReqOutcome T :=
  makeRequestGo net jit MAX_RETRIES 0 none

/-! ### The four exposed operations and the outbound request shape -/

/-- A query-parameter value: `string | string[] | undefined`. -/
inductive ParamValue where
  | str (s : String)
  | arr (l : List String)
  | undef
deriving Repr, DecidableEq

/-- `buildUrl`: base URL plus endpoint plus the query string; `undefined`
values are skipped and array values join with commas.  (Percent-encoding
and `searchParams.set` key de-duplication are not modelled; the claims
treat the constructed URL as an opaque string.) -/
def buildUrl (endpoint : String) (params : Option (List (String × ParamValue))) : String :=
  let pairs := (params.getD []).filterMap (fun kv =>
    match kv.2 with
    | .undef => none
    | .str s => some (kv.1 ++ "=" ++ s)
    | .arr l => some (kv.1 ++ "=" ++ String.intercalate "," l))
  BASE_URL ++ endpoint ++ (if pairs.isEmpty then "" else "?" ++ String.intercalate "&" pairs)

/-- The `RequestOptions` record `makeRequest` receives from a wrapper:
method, optional body of payload type `B`, optional query parameters. -/
structure RequestOptions (B : Type) where
  method : String
  body : Option B
  params : Option (List (String × ParamValue))

/-- The options `get(endpoint, params)` passes to `makeRequest`. -/
def getRequestOptions (B : Type) (params : Option (List (String × ParamValue))) :
    RequestOptions B :=
  { method := "GET", body := none, params }

/-- The options `post(endpoint, body)` passes to `makeRequest`. -/
def postRequestOptions {B : Type} (body : B) : RequestOptions B :=
  { method := "POST", body := some body, params := none }

/-- The options `patch(endpoint, body)` passes to `makeRequest`. -/
def patchRequestOptions {B : Type} (body : B) : RequestOptions B :=
  { method := "PATCH", body := some body, params := none }

/-- The options `del(endpoint)` passes to `makeRequest`.  The source
signature is `del<T>(endpoint: string)`: there is no body parameter. -/
def delRequestOptions (B : Type) : RequestOptions B :=
  { method := "DELETE", body := none, params := none }

/-- The body `makeRequest` puts on the outbound `fetch`:
`if (body) fetchOptions.body = JSON.stringify(body)`.  The bodies the
tools pass are JSON objects, which are truthy. -/
def fetchBodyOf {B : Type} (stringify : B → String) (opts : RequestOptions B) :
    Option String :=
  opts.body.map stringify

/-! ### Page Follower (`getAllPages`) -/

/-- The parsed pieces of one page fetch: `response.ok`, the status, the
error body after `response.json().catch(() => null)`, the page's `data`
array and its `links.next`. -/
structure PageResult (T : Type) where
  ok : Bool
  status : Nat
  errorBody : ErrorBody
  pageData : List T
  next : Option String
deriving Repr, DecidableEq

/-- How `getAllPages` terminates: the accumulated data, the classified
error thrown by the first failing fetch, or fuel exhaustion (the source
loop simply keeps following links; theorems supply enough fuel). -/
inductive PagesOutcome (T : Type) where
  | ok (data : List T)
  | err (e : AppStoreConnectError)
  | fuelOut
deriving Repr, DecidableEq

/-- `data.links?.next || null`: a missing or empty link stops the loop. -/
def jsNextOf (next : Option String) : Option String :=
  jsPresentString next

/-- The `while (nextUrl)` loop of `getAllPages`, returning the list of
URLs fetched (in order) and the outcome.  Each iteration fetches the
current URL once; a non-ok response throws the classified error at once,
an ok response appends its `data` array and follows `links.next`. -/
def getAllPagesGo {T : Type} (net : String → PageResult T) :
    ℕ → String → List String × PagesOutcome T
  | 0, _ => ([], .fuelOut)
  | fuel + 1, url =>
    let r := net url
    if r.ok then
      match jsNextOf r.next with
      | none => ([url], .ok r.pageData)
      | some nu =>
        let rest := getAllPagesGo net fuel nu
        (url :: rest.1,
          match rest.2 with
          | .ok tail => .ok (r.pageData ++ tail)
          | o => o)
    else
      ([url], .err (parseErrorResponse r.status r.errorBody))

/-- `getAllPages(endpoint, params)`: start at the constructed URL. -/
def getAllPages {T : Type} (net : String → PageResult T) (fuel : ℕ)
    (endpoint : String) (params : Option (List (String × ParamValue))) :
    List String × PagesOutcome T :=
  getAllPagesGo net fuel (buildUrl endpoint params)

/-- A finite successful pagination chain of `net` starting at `u`: every
visited URL responds ok, each one's (truthy) `links.next` is the next URL
in `tr`, the final one carries no next link, and `acc` is the
concatenation of the pages' `data` arrays in order. -/
inductive Chain {T : Type} (net : String → PageResult T) :
    String → List String → List T → Prop
  | last (u : String) (h : (net u).ok = true) (hn : jsNextOf (net u).next = none) :
      Chain net u [u] (net u).pageData
  | step (u nu : String) (tr : List String) (acc : List T)
      (h : (net u).ok = true) (hn : jsNextOf (net u).next = some nu)
      (hc : Chain net nu tr acc) :
      Chain net u (u :: tr) ((net u).pageData ++ acc)

/-- A pagination chain whose final fetch fails: the preceding URLs all
respond ok and link onward, and `e` is the classified error of the last
URL's response. -/
inductive ChainFail {T : Type} (net : String → PageResult T) :
    String → List String → AppStoreConnectError → Prop
  | here (u : String) (h : (net u).ok = false) :
      ChainFail net u [u] (parseErrorResponse (net u).status (net u).errorBody)
  | step (u nu : String) (tr : List String) (e : AppStoreConnectError)
      (h : (net u).ok = true) (hn : jsNextOf (net u).next = some nu)
      (hc : ChainFail net nu tr e) :
      ChainFail net u (u :: tr) e

/-! ### Concrete oracles for closed instances -/

/-- A network that answers every attempt with `429` and `Retry-After: 0`. -/
def rateLimitZeroNet : ℕ → AttemptOut ℕ := fun _ => .resp ⟨429, some "0", .jsNull, 0⟩

/-- A degenerate `Math.random()` sequence that always draws 0. -/
def zeroJitter : ℕ → ℚ := fun _ => 0

/-- A two-page collection at `/apps` (second page at `next-page`);
anything else is 404. -/
def pagesDemoNet : String → PageResult ℕ := fun u =>
  if u = "https://api.appstoreconnect.apple.com/v1/apps" then
    ⟨true, 200, .jsNull, [1, 2], some "next-page"⟩
  else if u = "next-page" then ⟨true, 200, .jsNull, [3], none⟩
  else ⟨false, 404, .jsString "not found", [], none⟩

/-! ## Helper lemmas -/

/-- `splitChar` never returns the empty list. -/
theorem splitChar_ne_nil (sep : Char) (l : List Char) : splitChar sep l ≠ [] := by
  induction l with
  | nil => simp [splitChar]
  | cons c cs ih =>
    simp only [splitChar]
    cases h : splitChar sep cs with
    | nil => simp
    | cons a as => by_cases hc : c = sep <;> simp [hc]

/-- A list free of the separator splits into itself alone. -/
theorem splitChar_eq_single (sep : Char) (l : List Char) (h : sep ∉ l) :
    splitChar sep l = [l] := by
  induction l with
  | nil => rfl
  | cons c cs ih =>
    simp only [splitChar]
    rw [ih (fun hm => h (List.mem_cons_of_mem _ hm))]
    have hc : ¬ c = sep := fun e => h (e ▸ List.mem_cons_self c cs)
    simp [hc]

/-- A leading separator opens with an empty segment. -/
theorem splitChar_cons_sep (sep : Char) (l : List Char) :
    splitChar sep (sep :: l) = [] :: splitChar sep l := by
  simp only [splitChar]
  cases h : splitChar sep l with
  | nil => exact absurd h (splitChar_ne_nil sep l)
  | cons a as => simp

/-- Splitting an append whose first part is separator-free prepends that
part onto the first segment of the second part's split. -/
theorem splitChar_append (sep : Char) (a b : List Char) (ha : sep ∉ a) :
    splitChar sep (a ++ b)
      = (a ++ (splitChar sep b).headD []) :: (splitChar sep b).tail := by
  induction a with
  | nil =>
    cases h : splitChar sep b with
    | nil => exact absurd h (splitChar_ne_nil sep b)
    | cons l ls => simp [h]
  | cons c a' ih =>
    have hc : ¬ c = sep := fun e => ha (e ▸ List.mem_cons_self c a')
    have ha' : sep ∉ a' := fun hm => ha (List.mem_cons_of_mem _ hm)
    simp only [List.cons_append, splitChar]
    simp only [List.append_eq]
    rw [ih ha']
    simp [hc]

/-- A header that is one semicolon-free segment is processed by a single
`applyRateLimitPart` step followed by the timestamp update. -/
theorem parseRateLimitHeaders_single_part (p : String) (now : Int) (st : RateLimitInfo)
    (hne : p ≠ "") (hnosemi : ';' ∉ p.data) :
    parseRateLimitHeaders (some p) now st
      = { applyRateLimitPart st p with lastUpdated := now } := by
  simp only [parseRateLimitHeaders]
  rw [if_neg hne]
  have h1 : jsSplit p ';' = [p] := by
    unfold jsSplit
    rw [splitChar_eq_single _ _ hnosemi]
    rfl
  rw [h1]
  rfl

/-- `applyRateLimitPart` on a segment `key ++ ":" ++ v` (with colon-free
key and value) dispatches on the key and assigns `parseInt` of the value. -/
theorem applyRateLimitPart_keyed (key v : String) (st : RateLimitInfo)
    (hcolon : ':' ∉ v.data) (hkc : ':' ∉ key.data) :
    applyRateLimitPart st (key ++ ":" ++ v)
      = (if key = "user-hour-lim" then { st with hourlyLimit := jsParseIntOpt (some v) }
         else if key = "user-hour-rem" then { st with hourlyRemaining := jsParseIntOpt (some v) }
         else st) := by
  have hdata : (key ++ ":" ++ v).data = key.data ++ (':' :: v.data) := by
    rw [String.data_append, String.data_append]
    simp
  unfold applyRateLimitPart
  have h2 : jsSplit (key ++ ":" ++ v) ':' = [key, v] := by
    unfold jsSplit
    rw [hdata, splitChar_append _ _ _ hkc, splitChar_cons_sep,
      splitChar_eq_single _ _ hcolon]
    simp
  rw [h2]
  rfl

/-- Parsing a header that is a single recognized `key:value` segment. -/
theorem parseRateLimitHeaders_keyed_segment (key v : String) (now : Int) (st : RateLimitInfo)
    (hks : ';' ∉ key.data) (hvs : ';' ∉ v.data) :
    parseRateLimitHeaders (some (key ++ ":" ++ v)) now st
      = { applyRateLimitPart st (key ++ ":" ++ v) with lastUpdated := now } := by
  have hdata : (key ++ ":" ++ v).data = key.data ++ (':' :: v.data) := by
    rw [String.data_append, String.data_append]
    simp
  have hne : (key ++ ":" ++ v) ≠ "" := by
    intro h
    have h2 := congrArg String.data h
    rw [hdata] at h2
    simp at h2
  have hnosemi : ';' ∉ (key ++ ":" ++ v).data := by
    rw [hdata]
    intro hm
    rcases List.mem_append.mp hm with hl | hr
    · exact hks hl
    · rcases List.mem_cons.mp hr with he | hv2
      · exact absurd he (by decide)
      · exact hvs hv2
  exact parseRateLimitHeaders_single_part _ _ _ hne hnosemi

/-- The successful-chain lemma: `getAllPagesGo` on a chain returns the
visited URLs and the concatenated data, given enough fuel. -/
theorem getAllPagesGo_chain {T : Type} {net : String → PageResult T}
    {u : String} {tr : List String} {acc : List T} (hc : Chain net u tr acc) :
    ∀ fuel : ℕ, tr.length ≤ fuel → getAllPagesGo net fuel u = (tr, .ok acc) := by
  induction hc with
  | last u h hn =>
    intro fuel hf
    cases fuel with
    | zero => simp at hf
    | succ f => simp [getAllPagesGo, h, hn]
  | step u nu tr acc h hn hc ih =>
    intro fuel hf
    cases fuel with
    | zero => simp at hf
    | succ f =>
      have hlen : tr.length ≤ f := by simpa using hf
      simp [getAllPagesGo, h, hn, ih f hlen]

/-- The failing-chain lemma: `getAllPagesGo` on a chain that reaches a
failing fetch returns the URLs up to and including it, and its classified
error. -/
theorem getAllPagesGo_chainFail {T : Type} {net : String → PageResult T}
    {u : String} {tr : List String} {e : AppStoreConnectError} (hc : ChainFail net u tr e) :
    ∀ fuel : ℕ, tr.length ≤ fuel → getAllPagesGo net fuel u = (tr, .err e) := by
  induction hc with
  | here u h =>
    intro fuel hf
    cases fuel with
    | zero => simp at hf
    | succ f => simp [getAllPagesGo, h]
  | step u nu tr e h hn hc ih =>
    intro fuel hf
    cases fuel with
    | zero => simp at hf
    | succ f =>
      have hlen : tr.length ≤ f := by simpa using hf
      simp [getAllPagesGo, h, hn, ih f hlen]

/-! ## Claim theorems -/

/-- C1: a 401 or 403 on attempt 0 clears the cached credential and
retries immediately with no backoff sleep; a 401 or 403 on any later
attempt terminates the call with an Authentication Error; hence a call
receiving 401 (or 403) on every attempt makes exactly 2 HTTP attempts —
not 3 — before failing. -/
theorem makeRequest_auth_retry_once :
    ∀ (T : Type) (net : ℕ → AttemptOut T) (jit : ℕ → ℚ),
      (∀ r : HttpResp T, net 0 = .resp r → r.status = 401 ∨ r.status = 403 →
        makeRequest net jit =
          (.httpAttempt 0 :: .clearCache :: (makeRequestGo net jit 2 1 none).1,
           (makeRequestGo net jit 2 1 none).2)) ∧
      (∀ (a : ℕ) (r : HttpResp T) (last : Option PipelineFailure),
        1 ≤ a → a < MAX_RETRIES → net a = .resp r → r.status = 401 ∨ r.status = 403 →
        makeRequestGo net jit (MAX_RETRIES - a) a last
          = ([.httpAttempt a], .authError r.status)) ∧
      (∀ r0 r1 : HttpResp T, net 0 = .resp r0 → r0.status = 401 ∨ r0.status = 403 →
        net 1 = .resp r1 → r1.status = 401 ∨ r1.status = 403 →
        makeRequest net jit
          = ([.httpAttempt 0, .clearCache, .httpAttempt 1], .authError r1.status)) := by
  intro T net jit
  have step0 : ∀ r : HttpResp T, net 0 = .resp r → r.status = 401 ∨ r.status = 403 →
      makeRequest net jit =
        (.httpAttempt 0 :: .clearCache :: (makeRequestGo net jit 2 1 none).1,
         (makeRequestGo net jit 2 1 none).2) := by
    intro r h0 hst
    rcases hst with h | h <;>
      simp [makeRequest, makeRequestGo, MAX_RETRIES, h0, h, respOk]
  have stepLater : ∀ (a : ℕ) (r : HttpResp T) (last : Option PipelineFailure),
      1 ≤ a → a < MAX_RETRIES → net a = .resp r → r.status = 401 ∨ r.status = 403 →
      makeRequestGo net jit (MAX_RETRIES - a) a last
        = ([.httpAttempt a], .authError r.status) := by
    intro a r last h1 h3 ha hst
    simp only [MAX_RETRIES] at h3
    interval_cases a <;> rcases hst with h | h <;>
      simp [makeRequestGo, MAX_RETRIES, ha, h, respOk]
  refine ⟨step0, stepLater, ?_⟩
  intro r0 r1 h0 hst0 h1 hst1
  rw [step0 r0 h0 hst0]
  have h2 := stepLater 1 r1 none (by norm_num) (by norm_num [MAX_RETRIES]) h1 hst1
  simp only [MAX_RETRIES] at h2
  rw [h2]

/-- C1 witness: a network answering 401 on every attempt yields exactly
two HTTP attempts, one cache clearing, no sleeps, and an Authentication
Error. -/
theorem makeRequest_auth_retry_once_witness :
    makeRequest (fun _ => .resp (⟨401, none, .jsNull, 0⟩ : HttpResp ℕ)) (fun _ => 0)
      = ([.httpAttempt 0, .clearCache, .httpAttempt 1], .authError 401) :=
  (makeRequest_auth_retry_once ℕ (fun _ => .resp ⟨401, none, .jsNull, 0⟩) (fun _ => 0)).2.2
    ⟨401, none, .jsNull, 0⟩ ⟨401, none, .jsNull, 0⟩ rfl (Or.inl rfl) rfl (Or.inl rfl)

/-- C2 counterexample: with `Retry-After: 0` — a present header carrying
the integer 0 — the pipeline does NOT sleep `Retry-After * 1000 = 0` ms
as the claim states: `0` is falsy in JS, so the code sleeps the
exponential backoff delay instead (1000 ms at attempt 0 under a zero
jitter draw). -/
theorem makeRequest_retry_after_zero_not_honoured :
    makeRequest rateLimitZeroNet zeroJitter
      = ([.httpAttempt 0, .sleep 1000, .httpAttempt 1, .sleep 2000, .httpAttempt 2],
         .rateLimitError (.val 0)) ∧
    PipelineEvent.sleep ((0 : ℚ) * 1000) ∉ (makeRequest rateLimitZeroNet zeroJitter).1 := by
  have h : makeRequest rateLimitZeroNet zeroJitter
      = ([.httpAttempt 0, .sleep 1000, .httpAttempt 1, .sleep 2000, .httpAttempt 2],
         .rateLimitError (.val 0)) := by
    with_unfolding_all rfl
  refine ⟨h, ?_⟩
  rw [h]
  simp

/-- C2 (amended): on 429 with attempts remaining the pipeline sleeps
`Retry-After * 1000` ms when the header parses to a truthy (nonzero,
non-NaN) integer, and `computeDelay(attempt)` otherwise (header absent,
zero, or unparseable); on 429 with attempts exhausted it raises a Rate
Limit Error carrying the parsed retry-after slot (`undefined` when the
header was absent, NaN when unparseable); a call receiving 429 with
`Retry-After: 2` on attempts 0 and 1 and 200 on attempt 2 returns the
payload after sleeping 2000 ms twice. -/
theorem makeRequest_rate_limit_policy :
    ∀ (T : Type) (net : ℕ → AttemptOut T) (jit : ℕ → ℚ),
      (∀ (a : ℕ) (r : HttpResp T) (last : Option PipelineFailure) (n : Int),
        a < MAX_RETRIES - 1 → net a = .resp r → r.status = 429 →
        retryAfterSecondsOf r.retryAfter = .val n → n ≠ 0 →
        makeRequestGo net jit (MAX_RETRIES - a) a last
          = (.httpAttempt a :: .sleep ((n : ℚ) * 1000)
                :: (makeRequestGo net jit (MAX_RETRIES - a - 1) (a + 1) last).1,
             (makeRequestGo net jit (MAX_RETRIES - a - 1) (a + 1) last).2)) ∧
      (∀ (a : ℕ) (r : HttpResp T) (last : Option PipelineFailure),
        a < MAX_RETRIES - 1 → net a = .resp r → r.status = 429 →
        (retryAfterSecondsOf r.retryAfter).truthy = false →
        makeRequestGo net jit (MAX_RETRIES - a) a last
          = (.httpAttempt a :: .sleep (calculateBackoff a (jit a) 1000 60000)
                :: (makeRequestGo net jit (MAX_RETRIES - a - 1) (a + 1) last).1,
             (makeRequestGo net jit (MAX_RETRIES - a - 1) (a + 1) last).2)) ∧
      (∀ (r : HttpResp T) (last : Option PipelineFailure),
        net 2 = .resp r → r.status = 429 →
        makeRequestGo net jit 1 2 last
          = ([.httpAttempt 2], .rateLimitError (retryAfterSecondsOf r.retryAfter))) ∧
      (∀ r0 r1 r2 : HttpResp T,
        net 0 = .resp r0 → r0.status = 429 → r0.retryAfter = some "2" →
        net 1 = .resp r1 → r1.status = 429 → r1.retryAfter = some "2" →
        net 2 = .resp r2 → respOk r2.status = true → r2.status ≠ 204 →
        makeRequest net jit
          = ([.httpAttempt 0, .sleep 2000, .httpAttempt 1, .sleep 2000, .httpAttempt 2],
             .success (some r2.okBody))) := by
  intro T net jit
  have hra2 : retryAfterSecondsOf (some "2") = .val 2 := by decide
  have sleepTruthy : ∀ (a : ℕ) (r : HttpResp T) (last : Option PipelineFailure) (n : Int),
      a < MAX_RETRIES - 1 → net a = .resp r → r.status = 429 →
      retryAfterSecondsOf r.retryAfter = .val n → n ≠ 0 →
      makeRequestGo net jit (MAX_RETRIES - a) a last
        = (.httpAttempt a :: .sleep ((n : ℚ) * 1000)
              :: (makeRequestGo net jit (MAX_RETRIES - a - 1) (a + 1) last).1,
           (makeRequestGo net jit (MAX_RETRIES - a - 1) (a + 1) last).2) := by
    intro a r last n ha hr h429 hras hn
    simp only [MAX_RETRIES] at ha ⊢
    interval_cases a <;>
      simp [makeRequestGo, MAX_RETRIES, hr, h429, respOk, hras, JsNum.truthy, JsNum.ms, hn]
  have sleepBackoff : ∀ (a : ℕ) (r : HttpResp T) (last : Option PipelineFailure),
      a < MAX_RETRIES - 1 → net a = .resp r → r.status = 429 →
      (retryAfterSecondsOf r.retryAfter).truthy = false →
      makeRequestGo net jit (MAX_RETRIES - a) a last
        = (.httpAttempt a :: .sleep (calculateBackoff a (jit a) 1000 60000)
              :: (makeRequestGo net jit (MAX_RETRIES - a - 1) (a + 1) last).1,
           (makeRequestGo net jit (MAX_RETRIES - a - 1) (a + 1) last).2) := by
    intro a r last ha hr h429 hfalsy
    simp only [MAX_RETRIES] at ha ⊢
    interval_cases a <;>
      simp [makeRequestGo, MAX_RETRIES, hr, h429, respOk, hfalsy]
  have exhausted : ∀ (r : HttpResp T) (last : Option PipelineFailure),
      net 2 = .resp r → r.status = 429 →
      makeRequestGo net jit 1 2 last
        = ([.httpAttempt 2], .rateLimitError (retryAfterSecondsOf r.retryAfter)) := by
    intro r last hr h429
    simp [makeRequestGo, MAX_RETRIES, hr, h429, respOk]
  refine ⟨sleepTruthy, sleepBackoff, exhausted, ?_⟩
  intro r0 r1 r2 h0 h0s h0ra h1 h1s h1ra h2 hok h204
  have e0 := sleepTruthy 0 r0 none 2 (by norm_num [MAX_RETRIES]) h0 h0s
    (by rw [h0ra, hra2]) (by norm_num)
  have e1 := sleepTruthy 1 r1 none 2 (by norm_num [MAX_RETRIES]) h1 h1s
    (by rw [h1ra, hra2]) (by norm_num)
  have e2 : makeRequestGo net jit 1 2 none = ([.httpAttempt 2], .success (some r2.okBody)) := by
    simp [makeRequestGo, MAX_RETRIES, h2, hok, h204]
  simp only [MAX_RETRIES] at e0 e1
  rw [makeRequest, show MAX_RETRIES = 3 from rfl, e0]
  norm_num at e1 ⊢
  rw [e1, e2]
  norm_num

/-- C2 witness: the end-to-end 429/429/200 scenario with `Retry-After: 2`
returns the payload after two 2000 ms sleeps. -/
theorem makeRequest_rate_limit_policy_witness :
    makeRequest (fun i => if i < 2 then .resp (⟨429, some "2", .jsNull, 0⟩ : HttpResp ℕ)
        else .resp ⟨200, none, .jsNull, 42⟩) zeroJitter
      = ([.httpAttempt 0, .sleep 2000, .httpAttempt 1, .sleep 2000, .httpAttempt 2],
         .success (some 42)) :=
  (makeRequest_rate_limit_policy ℕ
      (fun i => if i < 2 then .resp ⟨429, some "2", .jsNull, 0⟩
        else .resp ⟨200, none, .jsNull, 42⟩) zeroJitter).2.2.2
    ⟨429, some "2", .jsNull, 0⟩ ⟨429, some "2", .jsNull, 0⟩ ⟨200, none, .jsNull, 42⟩
    rfl rfl rfl rfl rfl rfl rfl rfl (by decide)

/-- C3: for every HTTP status and every error-body shape, the classified
error's `isRetryable` flag equals `status ≥ 500 OR status = 429`; in
particular 500 and 429 always yield `true`, and 400 and 404 always yield
`false`. -/
theorem parseErrorResponse_isRetryable_rule :
    ∀ (status : Nat) (body : ErrorBody),
      (parseErrorResponse status body).isRetryable
          = (decide (500 ≤ status) || decide (status = 429))
        ∧ (parseErrorResponse 500 body).isRetryable = true
        ∧ (parseErrorResponse 429 body).isRetryable = true
        ∧ (parseErrorResponse 400 body).isRetryable = false
        ∧ (parseErrorResponse 404 body).isRetryable = false := by
  intro status body
  refine ⟨?_, ?_, ?_, ?_, ?_⟩ <;> cases body <;>
    simp [parseErrorResponse, mkAppStoreConnectError]

/-- C4 counterexample: at attempt 10 with the default base 1000 and cap
60000 the claimed lower bound `base * 2^n` fails — the delay is clamped
to 60000, far below `1000 * 2^10 = 1024000`. -/
theorem calculateBackoff_attempt10_below_spec_lower_bound :
    calculateBackoff 10 0 1000 60000 = 60000 ∧
    ¬ (1000 * 2 ^ 10 ≤ calculateBackoff 10 0 1000 60000) := by
  norm_num [calculateBackoff]

/-- C4 (amended): for a nonnegative base delay and a jitter draw in
`[0, 1)`, `computeDelay(n, base, max)` lies in
`[min(base * 2^n, max), min(base * 2^n * 1.25, max)]` (the claimed lower
bound `base * 2^n` must itself be clamped at `max`); the delay never
exceeds `max` for any arguments whatsoever; and
`computeDelay(10, 1000, 60000) = 60000` exactly. -/
theorem calculateBackoff_bounds (n : ℕ) (b M r : ℚ)
    (hb : 0 ≤ b) (hr0 : 0 ≤ r) (hr1 : r < 1) :
    min (b * 2 ^ n) M ≤ calculateBackoff n r b M ∧
    calculateBackoff n r b M ≤ min (b * 2 ^ n * (125 / 100)) M ∧
    (∀ (n' : ℕ) (r' b' M' : ℚ), calculateBackoff n' r' b' M' ≤ M') ∧
    calculateBackoff 10 r 1000 60000 = 60000 := by
  have hE : (0 : ℚ) ≤ b * 2 ^ n := by positivity
  refine ⟨?_, ?_, ?_, ?_⟩
  · exact min_le_min (by nlinarith) le_rfl
  · exact min_le_min (by nlinarith) le_rfl
  · intro n' r' b' M'
    exact min_le_right _ _
  · have h : (60000 : ℚ) ≤ 1000 * 2 ^ 10 + 1000 * 2 ^ 10 * r * (25 / 100) := by nlinarith
    simp [calculateBackoff, min_eq_right h]

/-- C4 witness: the amended bounds at attempt 1 with jitter draw 1/2. -/
theorem calculateBackoff_bounds_witness :
    min ((1000 : ℚ) * 2 ^ 1) 60000 ≤ calculateBackoff 1 (1/2) 1000 60000 ∧
    calculateBackoff 1 (1/2) 1000 60000 ≤ min ((1000 : ℚ) * 2 ^ 1 * (125 / 100)) 60000 ∧
    (∀ (n' : ℕ) (r' b' M' : ℚ), calculateBackoff n' r' b' M' ≤ M') ∧
    calculateBackoff 10 (1/2) 1000 60000 = 60000 :=
  calculateBackoff_bounds 1 1000 60000 (1/2) (by norm_num) (by norm_num) (by norm_num)

/-- C5: the cached token is returned unchanged — no signature computed —
exactly when a cached token with more than the 2-minute refresh margin of
lifetime remains; two calls within the margin return the identical token
string with the signing primitive invoked exactly once; after
`clearTokenCache` the next call always signs fresh. -/
theorem generateToken_cache_policy :
    (∀ (sign : TokenPayload → String → String → String) (env : EnvConfig) (now : Int)
        (s : JwtState) (ct : CachedToken) (cfg : AppStoreConnectConfig),
      getConfig env = .ok cfg → s.cachedToken = some ct →
      ct.expiresAt - now > REFRESH_BEFORE_SECONDS →
      generateToken sign env now s = .ok (ct.token, s)) ∧
    (∀ (sign : TokenPayload → String → String → String) (env : EnvConfig) (now : Int)
        (s : JwtState) (tok : String) (s' : JwtState),
      generateToken sign env now s = .ok (tok, s') → s'.signCount = s.signCount →
      ∃ ct : CachedToken, s.cachedToken = some ct ∧
        ct.expiresAt - now > REFRESH_BEFORE_SECONDS ∧ tok = ct.token ∧ s' = s) ∧
    (∀ (sign : TokenPayload → String → String → String) (env : EnvConfig) (t1 t2 : Int)
        (c : Nat) (cfg : AppStoreConnectConfig),
      getConfig env = .ok cfg → 0 ≤ t2 - t1 → t2 - t1 < 1080 →
      ∃ (tok : String) (s1 : JwtState),
        generateToken sign env t1 ⟨none, c⟩ = .ok (tok, s1) ∧
        generateToken sign env t2 s1 = .ok (tok, s1) ∧
        s1.signCount = c + 1) ∧
    (∀ (sign : TokenPayload → String → String → String) (env : EnvConfig) (now : Int)
        (s : JwtState) (cfg : AppStoreConnectConfig),
      getConfig env = .ok cfg →
      ∃ (tok : String) (s' : JwtState),
        generateToken sign env now (clearTokenCache s) = .ok (tok, s') ∧
        s'.signCount = s.signCount + 1) := by
  refine ⟨?_, ?_, ?_, ?_⟩
  · intro sign env now s ct cfg hcfg hct hfresh
    simp only [generateToken, hcfg, hct]
    rw [if_pos hfresh]
  · intro sign env now s tok s' hgen hcount
    cases hcfg : getConfig env with
    | error e =>
      simp only [generateToken, hcfg] at hgen
      exact Except.noConfusion hgen
    | ok cfg =>
      cases hct : s.cachedToken with
      | none =>
        simp only [generateToken, hcfg, hct, Except.ok.injEq, Prod.mk.injEq] at hgen
        rw [← hgen.2] at hcount
        simp at hcount
      | some ct =>
        by_cases hfresh : ct.expiresAt - now > REFRESH_BEFORE_SECONDS
        · simp only [generateToken, hcfg, hct, if_pos hfresh, Except.ok.injEq,
            Prod.mk.injEq] at hgen
          exact ⟨ct, rfl, hfresh, hgen.1.symm, hgen.2.symm⟩
        · simp only [generateToken, hcfg, hct, if_neg hfresh, Except.ok.injEq,
            Prod.mk.injEq] at hgen
          rw [← hgen.2] at hcount
          simp at hcount
  · intro sign env t1 t2 c cfg hcfg h0 h1
    refine ⟨sign ⟨cfg.issuerId, t1, t1 + TOKEN_EXPIRY_SECONDS, "appstoreconnect-v1"⟩
        cfg.privateKey cfg.keyId,
      ⟨some ⟨sign ⟨cfg.issuerId, t1, t1 + TOKEN_EXPIRY_SECONDS, "appstoreconnect-v1"⟩
          cfg.privateKey cfg.keyId, t1 + TOKEN_EXPIRY_SECONDS⟩, c + 1⟩, ?_, ?_, rfl⟩
    · simp only [generateToken, hcfg]
    · have hfresh : t1 + TOKEN_EXPIRY_SECONDS - t2 > REFRESH_BEFORE_SECONDS := by
        unfold REFRESH_BEFORE_SECONDS TOKEN_EXPIRY_SECONDS
        omega
      simp only [generateToken, hcfg]
      rw [if_pos hfresh]
  · intro sign env now s cfg hcfg
    refine ⟨sign ⟨cfg.issuerId, now, now + TOKEN_EXPIRY_SECONDS, "appstoreconnect-v1"⟩
        cfg.privateKey cfg.keyId,
      ⟨some ⟨sign ⟨cfg.issuerId, now, now + TOKEN_EXPIRY_SECONDS, "appstoreconnect-v1"⟩
          cfg.privateKey cfg.keyId, now + TOKEN_EXPIRY_SECONDS⟩, s.signCount + 1⟩, ?_, rfl⟩
    simp only [generateToken, clearTokenCache, hcfg]

/-- C5 witness: with a cached token expiring at 2000 and the clock at
1000 (1000 s of lifetime left, above the 120 s margin), the cached token
is returned and the state — including the sign count — is unchanged. -/
theorem generateToken_cache_policy_witness :
    generateToken (fun _ k _ => k) ⟨some "iss", some "kid", some "PK"⟩ 1000
        ⟨some ⟨"tok", 2000⟩, 5⟩ = .ok ("tok", ⟨some ⟨"tok", 2000⟩, 5⟩) :=
  generateToken_cache_policy.1 (fun _ k _ => k) ⟨some "iss", some "kid", some "PK"⟩ 1000
    ⟨some ⟨"tok", 2000⟩, 5⟩ ⟨"tok", 2000⟩ ⟨"iss", "kid", "PK"⟩ rfl rfl (by decide)

/-- C6: observing an absent or empty `x-rate-limit` header leaves the
whole tracker state — `hourlyLimit`, `hourlyRemaining` and `lastUpdated`
— unchanged; observing the partial header `"user-hour-rem:1000;"` updates
only `hourlyRemaining` and the timestamp, leaving `hourlyLimit` at its
prior value. -/
theorem parseRateLimitHeaders_frame (st : RateLimitInfo) (now : Int) :
    parseRateLimitHeaders none now st = st ∧
    parseRateLimitHeaders (some "") now st = st ∧
    parseRateLimitHeaders (some "user-hour-rem:1000;") now st
      = { st with hourlyRemaining := some 1000, lastUpdated := now } :=
  ⟨rfl, rfl, rfl⟩

/-- C7 counterexample: the segment `user-hour-lim:abc` has a recognized
key and a malformed value, yet it is NOT skipped — `hourlyLimit` is
overwritten with `parseInt("abc") = NaN` (modeled `none`) instead of
keeping its prior value 3600. -/
theorem parseRateLimitHeaders_malformed_not_skipped :
    (parseRateLimitHeaders (some "user-hour-lim:abc;") 77 (initialRateLimitInfo 0)).hourlyLimit
        = none ∧
    (parseRateLimitHeaders (some "user-hour-lim:abc;") 77 (initialRateLimitInfo 0)).hourlyLimit
        ≠ (initialRateLimitInfo 0).hourlyLimit := by
  decide

/-- C7 (amended): parsing any header value is total (the model is a total
function mirroring the source, which performs no throwing operation), and
a segment whose key is recognized but whose value is malformed (no
leading digits) or missing assigns NaN (`none`) to the corresponding
field — it is not skipped; segments with unrecognized keys are skipped. -/
theorem parseRateLimitHeaders_malformed_sets_nan (v : String) (now : Int) (st : RateLimitInfo)
    (hv : parseIntJS v = none) (hsemi : ';' ∉ v.data) (hcolon : ':' ∉ v.data) :
    parseRateLimitHeaders (some ("user-hour-lim:" ++ v)) now st
      = { st with hourlyLimit := none, lastUpdated := now } ∧
    parseRateLimitHeaders (some ("user-hour-rem:" ++ v)) now st
      = { st with hourlyRemaining := none, lastUpdated := now } ∧
    parseRateLimitHeaders (some "user-hour-lim") now st
      = { st with hourlyLimit := none, lastUpdated := now } ∧
    parseRateLimitHeaders (some "nonsense-key:42;user-hour-rem:7") now st
      = { st with hourlyRemaining := some 7, lastUpdated := now } := by
  refine ⟨?_, ?_, rfl, rfl⟩
  · have h : ("user-hour-lim:" ++ v) = ("user-hour-lim" ++ ":" ++ v) := rfl
    rw [h, parseRateLimitHeaders_keyed_segment _ _ _ _ (by decide) hsemi,
      applyRateLimitPart_keyed _ _ _ hcolon (by decide)]
    simp [jsParseIntOpt, hv]
  · have h : ("user-hour-rem:" ++ v) = ("user-hour-rem" ++ ":" ++ v) := rfl
    rw [h, parseRateLimitHeaders_keyed_segment _ _ _ _ (by decide) hsemi,
      applyRateLimitPart_keyed _ _ _ hcolon (by decide)]
    simp [jsParseIntOpt, hv]

/-- C7 witness: the amended behaviour at the malformed value `"abc"`. -/
theorem parseRateLimitHeaders_malformed_sets_nan_witness :
    parseRateLimitHeaders (some ("user-hour-lim:" ++ "abc")) 77 (initialRateLimitInfo 0)
      = { initialRateLimitInfo 0 with hourlyLimit := none, lastUpdated := 77 } ∧
    parseRateLimitHeaders (some ("user-hour-rem:" ++ "abc")) 77 (initialRateLimitInfo 0)
      = { initialRateLimitInfo 0 with hourlyRemaining := none, lastUpdated := 77 } ∧
    parseRateLimitHeaders (some "user-hour-lim") 77 (initialRateLimitInfo 0)
      = { initialRateLimitInfo 0 with hourlyLimit := none, lastUpdated := 77 } ∧
    parseRateLimitHeaders (some "nonsense-key:42;user-hour-rem:7") 77 (initialRateLimitInfo 0)
      = { initialRateLimitInfo 0 with hourlyRemaining := some 7, lastUpdated := 77 } :=
  parseRateLimitHeaders_malformed_sets_nan "abc" 77 (initialRateLimitInfo 0)
    (by decide) (by decide) (by decide)

/-- C8: the exposed delete operation takes no body parameter, so the
outbound DELETE request never carries a JSON body — unlike post and
patch, whose supplied bodies are serialized onto the request.  This
contradicts the claim (and the in-repo caller
`remove_build_from_beta_group`, which passes a relationship body to
`del`). -/
theorem del_request_has_no_body :
    ∀ (B : Type) (stringify : B → String),
      fetchBodyOf stringify (delRequestOptions B) = none ∧
      (∀ body : B, fetchBodyOf stringify (postRequestOptions body) = some (stringify body)) ∧
      (∀ body : B, fetchBodyOf stringify (patchRequestOptions body) = some (stringify body)) :=
  fun _ _ => ⟨rfl, fun _ => rfl, fun _ => rfl⟩

/-- C9: `getAllPages` fetches the constructed URL, then each successive
truthy `links.next`, once each and in order; a chain of ok responses
yields the concatenation of the pages' `data` arrays, stopping at the
first response with no next link; a chain reaching a non-ok response
raises the classified error of that single fetch immediately — that URL
is fetched exactly once, with no retry and no backoff, and pagination
ends there. -/
theorem getAllPages_pagination :
    ∀ (T : Type) (net : String → PageResult T) (fuel : ℕ) (endpoint : String)
      (params : Option (List (String × ParamValue))),
      (∀ (tr : List String) (acc : List T),
        Chain net (buildUrl endpoint params) tr acc → tr.length ≤ fuel →
        getAllPages net fuel endpoint params = (tr, .ok acc)) ∧
      (∀ (tr : List String) (e : AppStoreConnectError),
        ChainFail net (buildUrl endpoint params) tr e → tr.length ≤ fuel →
        getAllPages net fuel endpoint params = (tr, .err e)) :=
  fun _ _ _ _ _ =>
    ⟨fun _ _ hc hf => getAllPagesGo_chain hc _ hf,
     fun _ _ hc hf => getAllPagesGo_chainFail hc _ hf⟩

/-- C9 witness: a two-page collection is concatenated in order, and a 404
on the first page raises the classified error at once. -/
theorem getAllPages_pagination_witness :
    getAllPages pagesDemoNet 5 "/apps" none
      = (["https://api.appstoreconnect.apple.com/v1/apps", "next-page"], .ok [1, 2, 3]) ∧
    getAllPages pagesDemoNet 5 "/missing" none
      = (["https://api.appstoreconnect.apple.com/v1/missing"],
         .err (parseErrorResponse 404 (.jsString "not found"))) := by
  constructor
  · exact (getAllPages_pagination ℕ pagesDemoNet 5 "/apps" none).1
      ["https://api.appstoreconnect.apple.com/v1/apps", "next-page"] [1, 2, 3]
      (Chain.step _ "next-page" _ _ rfl rfl (Chain.last _ rfl rfl))
      (by norm_num)
  · exact (getAllPages_pagination ℕ pagesDemoNet 5 "/missing" none).2
      ["https://api.appstoreconnect.apple.com/v1/missing"]
      (parseErrorResponse 404 (.jsString "not found"))
      (ChainFail.here _ rfl)
      (by norm_num)

/-- C10: `generateToken` loads the configuration before consulting the
token cache: when `getConfig` fails, every call fails with that
configuration error even if a still-valid token is cached; when any of
issuer id, key id or private key is absent, every call fails; and a
successful call implies the configuration was valid at that call. -/
theorem generateToken_loads_config_first :
    (∀ (sign : TokenPayload → String → String → String) (env : EnvConfig) (now : Int)
        (s : JwtState) (e : ConfigError),
      getConfig env = .error e → generateToken sign env now s = .error e) ∧
    (∀ (sign : TokenPayload → String → String → String) (env : EnvConfig) (now : Int)
        (s : JwtState),
      env.issuerId = none ∨ env.keyId = none ∨ env.privateKey = none →
      ∃ e : ConfigError, generateToken sign env now s = .error e) ∧
    (∀ (sign : TokenPayload → String → String → String) (env : EnvConfig) (now : Int)
        (s : JwtState) (tok : String) (s' : JwtState),
      generateToken sign env now s = .ok (tok, s') →
      ∃ cfg : AppStoreConnectConfig, getConfig env = .ok cfg) := by
  refine ⟨?_, ?_, ?_⟩
  · intro sign env now s e hcfg
    simp only [generateToken, hcfg]
  · intro sign env now s habs
    have herr : ∃ e : ConfigError, getConfig env = .error e := by
      unfold getConfig
      rcases habs with h | h | h
      · rw [h]
        exact ⟨.missingIssuerId, rfl⟩
      · cases jsPresentString env.issuerId with
        | none => exact ⟨.missingIssuerId, rfl⟩
        | some iss => rw [h]; exact ⟨.missingKeyId, rfl⟩
      · cases jsPresentString env.issuerId with
        | none => exact ⟨.missingIssuerId, rfl⟩
        | some iss =>
          cases jsPresentString env.keyId with
          | none => exact ⟨.missingKeyId, rfl⟩
          | some kid => rw [h]; exact ⟨.missingPrivateKey, rfl⟩
    obtain ⟨e, he⟩ := herr
    exact ⟨e, by simp only [generateToken, he]⟩
  · intro sign env now s tok s' hgen
    cases hcfg : getConfig env with
    | error e =>
      simp only [generateToken, hcfg] at hgen
      exact Except.noConfusion hgen
    | ok cfg => exact ⟨cfg, rfl⟩

/-- C10 witness: with the issuer id missing and a still-valid cached
token (expiry 2000, clock 1000), the call fails with the configuration
error rather than serving the cache. -/
theorem generateToken_loads_config_first_witness :
    generateToken (fun _ k _ => k) ⟨none, some "kid", some "PK"⟩ 1000
        ⟨some ⟨"tok", 2000⟩, 5⟩ = .error .missingIssuerId :=
  generateToken_loads_config_first.1 (fun _ k _ => k) ⟨none, some "kid", some "PK"⟩ 1000
    ⟨some ⟨"tok", 2000⟩, 5⟩ .missingIssuerId rfl
